import Mathlib

/-!
Verification of `tumblebit/ec.py` (class `EC`): key-handle lifecycle,
sign/verify gating, and conversion between DER-encoded ECDSA signatures
and the fixed 64-byte compact `R || S` form.

Bytes are modelled as `List Nat` (each element intended `< 256`).  The
external `CECKey` object from python-bitcoinlib is an opaque collaborator:
it is modelled as a type parameter `K` together with a record of the
library functions the source calls (`CECKeyLib`).  The OpenSSL DER
encoder/decoder (`i2d_ECDSA_SIG` / `d2i_ECDSA_SIG`) and the repository
helpers `BNToBin` / `BinToBN` (declared in `tumblebit/__init__.py`, which
is not part of the sources here) are modelled from the spec where a
concrete model is needed, and otherwise passed in as function parameters.
-/

/-- Little-endian base-256 value of a list of bytes (least significant first). -/
def leDecode : List Nat → Nat
  | [] => 0
  | b :: r => b + 256 * leDecode r

/-- `leEncode k n` is the `k`-byte little-endian base-256 encoding of `n`
(taking `n` modulo `256 ^ k`). -/
def leEncode : Nat → Nat → List Nat
  | 0, _ => []
  | k + 1, n => n % 256 :: leEncode k (n / 256)

/-- Big-endian base-256 value of a list of bytes (most significant first).
This is the value a BIGNUM holds after `BN_bin2bn` on those bytes. -/
def beDecode (bs : List Nat) : Nat := leDecode bs.reverse

/-- `beEncode k n`: the fixed-width `k`-byte big-endian encoding of `n`
(taking `n` modulo `256 ^ k`). -/
def beEncode (k n : Nat) : List Nat := (leEncode k n).reverse

/-- Number of bytes in the minimal big-endian encoding of `n` (`0` for `n = 0`),
as `BN_num_bytes` computes it. -/
def byteLen (n : Nat) : Nat :=
  if n = 0 then 0 else byteLen (n / 256) + 1
termination_by n
decreasing_by exact Nat.div_lt_self (Nat.pos_of_ne_zero (by assumption)) (by decide)

/-- Minimal unsigned big-endian content bytes of `n`, except that `0` is
one zero byte (as in a DER INTEGER of value zero). -/
def minBytes (n : Nat) : List Nat :=
  if n = 0 then [0] else beEncode (byteLen n) n

/-- Content octets of a DER INTEGER holding the non-negative value `n`:
the minimal big-endian bytes, with a leading zero (sign-guard) byte
prepended when the top bit of the first byte is set. -/
def derIntContent (n : Nat) : List Nat :=
  if 128 ≤ (minBytes n).headD 0 then 0 :: minBytes n else minBytes n

/-- A DER INTEGER TLV for the non-negative value `n`: tag `0x02`, length,
content. -/
def derInt (n : Nat) : List Nat :=
  2 :: (derIntContent n).length :: derIntContent n

/-- Modelled from the spec: the external OpenSSL encoder `i2d_ECDSA_SIG`,
producing the standard outer tag-length-value encoding (SEQUENCE tag
`0x30`) wrapping the two signed-big-number-encoded integers `r` and `s`. -/
def i2d_ECDSA_SIG (rs : Nat × Nat) : List Nat :=
  48 :: ((derInt rs.1).length + (derInt rs.2).length) :: (derInt rs.1 ++ derInt rs.2)

/-- Parse one DER INTEGER TLV from the front of `bs`, returning its value
and the remaining bytes. -/
def parseDERInt : List Nat → Option (Nat × List Nat)
  | 2 :: n :: rest =>
      if n ≤ rest.length then some (beDecode (rest.take n), rest.drop n) else none
  | _ => none

/-- Modelled from the spec: the external OpenSSL decoder `d2i_ECDSA_SIG`,
parsing the standard outer tag-length-value encoding back into the
integer pair `(r, s)`; `none` when parsing the outer encoding fails. -/
def d2i_ECDSA_SIG (bs : List Nat) : Option (Nat × Nat) :=
  match bs with
  | 48 :: n :: rest =>
      if rest.length = n then
        match parseDERInt rest with
        | some rr =>
            match parseDERInt rr.2 with
            | some ss => if ss.2.isEmpty then some (rr.1, ss.1) else none
            | none => none
        | none => none
      else none
  | _ => none

/-- Modelled from the spec: `BNToBin(bn, size)` from `tumblebit/__init__.py`
(not part of the sources here) — the fixed `size`-byte big-endian unsigned
encoding of the big number, left-zero-padded. -/
def BNToBin (bn size : Nat) : List Nat := beEncode size bn

/-- Modelled from the spec: `BinToBN` from `tumblebit/__init__.py` (not part
of the sources here) — reads bytes as a big-endian unsigned integer. -/
def BinToBN (bs : List Nat) : Nat := beDecode bs

/-- The distinguishable failure modes of `tumblebit/ec.py`, named after the
spec's error taxonomy.  Each constructor embeds one distinct `raise` site
of the source (all are `ValueError` in Python, told apart by message):
`notReady` is `ValueError('No key is loaded.')`, `privateKeyRequired` is
`ValueError('Signing requires a private key')`, `invalidLength` is
`ValueError('Serial sig has to be 64 bytes.')`, and `keyFormat` stands for
a key-parsing exception propagating out of the external library during a
load.  The source has no raise site corresponding to the spec's
`CodecError`. -/
inductive ECError where
  | notReady
  | privateKeyRequired
  | invalidLength
  | keyFormat
deriving DecidableEq, Repr

/-- The external `CECKey` collaborator from python-bitcoinlib, as the record
of operations the source calls on it.  `K` is the opaque key-object type.
`set_pubkey` / `set_privkey` return `none` when the library rejects the
bytes (a propagating exception in Python); `verify` returns the C-style
integer result code that the source compares against `1`. -/
structure CECKeyLib (K : Type) where
  newKey : K
  set_pubkey : K → List Nat → Option K
  set_privkey : K → List Nat → Option K
  get_pubkey : K → List Nat
  sign : K → List Nat → List Nat
  verify : K → List Nat → List Nat → Int

/-- The state of an `EC` handle: the wrapped key object and the two flags
`self.init` and `self.is_private` set in `EC.__init__`. -/
structure EC (K : Type) where
  key : K
  init : Bool
  is_private : Bool
deriving DecidableEq, Repr

/-- `EC.__init__`: fresh `CECKey`, `init = False`, `is_private = False`. -/
def EC.new {K : Type} (lib : CECKeyLib K) : EC K :=
  EC.mk lib.newKey false false

/-- `EC.load_public_key`: reads the bytes and calls `set_pubkey`; on success
sets `self.init = True` (and touches nothing else).  On a library failure
the exception propagates and neither flag is assigned.  Returns the
outcome paired with the post-state of the handle. -/
def EC.load_public_key {K : Type} (lib : CECKeyLib K) (st : EC K)
    (key_bytes : List Nat) : Except ECError Unit × EC K :=
  match lib.set_pubkey st.key key_bytes with
  | some k => (Except.ok (), EC.mk k true st.is_private)
  | none => (Except.error ECError.keyFormat, st)

/-- `EC.load_private_key`: reads the bytes and calls `set_privkey`; on
success sets `self.init = True` and `self.is_private = True`. -/
def EC.load_private_key {K : Type} (lib : CECKeyLib K) (st : EC K)
    (key_bytes : List Nat) : Except ECError Unit × EC K :=
  match lib.set_privkey st.key key_bytes with
  | some k => (Except.ok (), EC.mk k true true)
  | none => (Except.error ECError.keyFormat, st)

/-- `EC.get_pubkey`: `None` when `self.init` is false, else the encoding
returned by the library.  No error path. -/
def EC.get_pubkey {K : Type} (lib : CECKeyLib K) (st : EC K) :
    Option (List Nat) × EC K :=
  if st.init then (some (lib.get_pubkey st.key), st) else (none, st)

/-- `EC.sign`: requires `self.init` (else `ValueError('No key is loaded.')`)
and `self.is_private` (else `ValueError('Signing requires a private key')`);
only then calls `self.key.sign(msg)`. -/
def EC.sign {K : Type} (lib : CECKeyLib K) (st : EC K) (msg : List Nat) :
    Except ECError (List Nat) × EC K :=
  if st.init then
    if st.is_private then (Except.ok (lib.sign st.key msg), st)
    else (Except.error ECError.privateKeyRequired, st)
  else (Except.error ECError.notReady, st)

/-- `EC.verify`: requires `self.init` (else `ValueError('No key is loaded.')`);
returns `self.key.verify(msg, sig) == 1`, a plain boolean whatever integer
code the library reports. -/
def EC.verify {K : Type} (lib : CECKeyLib K) (st : EC K)
    (msg sig : List Nat) : Except ECError Bool × EC K :=
  if st.init then (Except.ok (lib.verify st.key msg sig == 1), st)
  else (Except.error ECError.notReady, st)

/-- `EC.serialize_sig`: hands the DER bytes to the decoder and returns
`BNToBin(r, 32) + BNToBin(s, 32)`.  The source ignores the decoder's
return code: on a parse failure the zero-initialized `ECDSA_SIG_st`
struct is read back, i.e. `r = s = 0` (modelled by `getD (0, 0)`).
No branch of the source raises.  The decoder is a parameter; the handle
state is returned unchanged (the method never assigns to `self`). -/
def EC.serialize_sig {K : Type} (st : EC K)
    (d2i : List Nat → Option (Nat × Nat)) (sig : List Nat) :
    List Nat × EC K :=
  let rs := (d2i sig).getD (0, 0)
  (BNToBin rs.1 32 ++ BNToBin rs.2 32, st)

/-- `EC.deserialize_sig`: demands exactly 64 input bytes (else
`ValueError('Serial sig has to be 64 bytes.')`), splits into
`serial_sig[:32]` and `serial_sig[32:]`, converts each with `BinToBN`,
and asks the encoder for the DER bytes.  When the encoder reports zero
length the source frees the struct and returns `None`; otherwise it
returns the encoder's bytes.  The encoder is a parameter; the handle
state is returned unchanged (the method never assigns to `self`). -/
def EC.deserialize_sig {K : Type} (st : EC K)
    (i2d : Nat × Nat → List Nat) (serial_sig : List Nat) :
    Except ECError (Option (List Nat)) × EC K :=
  if serial_sig.length = 64 then
    let r := BinToBN (serial_sig.take 32)
    let s := BinToBN (serial_sig.drop 32)
    let der := i2d (r, s)
    if der.length = 0 then (Except.ok none, st) else (Except.ok (some der), st)
  else (Except.error ECError.invalidLength, st)

/-- The handle states reachable from `EC.__init__` through the class's
methods.  Each constructor steps to the post-state (`.2`) of one method,
covering both its success and its failure branch; `sign`, `verify` and
`get_pubkey` are included even though they return the state unchanged. -/
inductive ECReach {K : Type} (lib : CECKeyLib K) : EC K → Prop where
  | mk_new : ECReach lib (EC.new lib)
  | load_pub (st : EC K) (bs : List Nat) :
      ECReach lib st → ECReach lib (EC.load_public_key lib st bs).2
  | load_priv (st : EC K) (bs : List Nat) :
      ECReach lib st → ECReach lib (EC.load_private_key lib st bs).2
  | do_sign (st : EC K) (msg : List Nat) :
      ECReach lib st → ECReach lib (EC.sign lib st msg).2
  | do_verify (st : EC K) (msg sig : List Nat) :
      ECReach lib st → ECReach lib (EC.verify lib st msg sig).2
  | do_pubkey (st : EC K) :
      ECReach lib st → ECReach lib (EC.get_pubkey lib st).2

/-- A trivial concrete instantiation of the external library, used to
evaluate the operations on concrete inputs: the key object carries no
data, loads always succeed, and `verify` reports the error code `-1`
(as OpenSSL does on malformed signature bytes). -/
def unitLib : CECKeyLib Unit :=
  CECKeyLib.mk () (fun _ _ => some ()) (fun _ _ => some ())
    (fun _ => [4, 7]) (fun _ _ => [48, 6, 2, 1, 1, 2, 1, 1])
    (fun _ _ _ => -1)

/-! ### Byte-codec lemmas -/

theorem length_leEncode (k n : Nat) : (leEncode k n).length = k := by
  induction k generalizing n with
  | zero => rfl
  | succ k ih => simp [leEncode, ih]

theorem leDecode_leEncode (k n : Nat) (h : n < 256 ^ k) :
    leDecode (leEncode k n) = n := by
  induction k generalizing n with
  | zero =>
      simp only [pow_zero, Nat.lt_one_iff] at h
      simp [h, leEncode, leDecode]
  | succ k ih =>
      have hdiv : n / 256 < 256 ^ k := by
        rw [Nat.div_lt_iff_lt_mul (by decide : 0 < 256)]
        calc n < 256 ^ (k + 1) := h
        _ = 256 ^ k * 256 := by rw [pow_succ]
      simp [leEncode, leDecode, ih _ hdiv, Nat.mod_add_div]

theorem leEncode_leDecode (l : List Nat) (h : ∀ b ∈ l, b < 256) :
    leEncode l.length (leDecode l) = l := by
  induction l with
  | nil => rfl
  | cons b t ih =>
      have hb : b < 256 := h b (List.mem_cons_self b t)
      have ht : ∀ x ∈ t, x < 256 := fun x hx => h x (List.mem_cons_of_mem b hx)
      have h1 : (b + 256 * leDecode t) % 256 = b := by
        rw [Nat.add_mul_mod_self_left, Nat.mod_eq_of_lt hb]
      have h2 : (b + 256 * leDecode t) / 256 = leDecode t := by
        rw [Nat.add_mul_div_left _ _ (by decide : 0 < 256),
          Nat.div_eq_of_lt hb, Nat.zero_add]
      simp [leDecode, leEncode, h1, h2, ih ht]

theorem leDecode_append_zero (l : List Nat) :
    leDecode (l ++ [0]) = leDecode l := by
  induction l with
  | nil => rfl
  | cons b t ih => simp [leDecode, ih]

theorem leEncode_mod (k n : Nat) : leEncode k (n % 256 ^ k) = leEncode k n := by
  induction k generalizing n with
  | zero => rfl
  | succ k ih =>
      have hd : (256 : Nat) ∣ 256 ^ (k + 1) := dvd_pow_self 256 (Nat.succ_ne_zero k)
      have h1 : n % 256 ^ (k + 1) % 256 = n % 256 := Nat.mod_mod_of_dvd n hd
      have h2 : n % 256 ^ (k + 1) / 256 = n / 256 % 256 ^ k := by
        have : (256 : Nat) ^ (k + 1) = 256 * 256 ^ k := by
          rw [pow_succ, Nat.mul_comm]
        rw [this, Nat.mod_mul_right_div_self]
      simp [leEncode, h1, h2, ih]

theorem length_beEncode (k n : Nat) : (beEncode k n).length = k := by
  simp [beEncode, length_leEncode]

theorem beDecode_beEncode (k n : Nat) (h : n < 256 ^ k) :
    beDecode (beEncode k n) = n := by
  simp [beDecode, beEncode, leDecode_leEncode k n h]

theorem beEncode_beDecode (l : List Nat) (h : ∀ b ∈ l, b < 256) :
    beEncode l.length (beDecode l) = l := by
  have hr : ∀ b ∈ l.reverse, b < 256 := fun b hb => h b (List.mem_reverse.mp hb)
  have := leEncode_leDecode l.reverse hr
  calc beEncode l.length (beDecode l)
      = (leEncode l.reverse.length (leDecode l.reverse)).reverse := by
        rw [beEncode, beDecode, List.length_reverse]
  _ = l.reverse.reverse := by rw [this]
  _ = l := List.reverse_reverse l

theorem beDecode_cons_zero (l : List Nat) : beDecode (0 :: l) = beDecode l := by
  simp [beDecode, List.reverse_cons, leDecode_append_zero]

theorem beEncode_mod (k n : Nat) : beEncode k (n % 256 ^ k) = beEncode k n := by
  simp [beEncode, leEncode_mod]

theorem leEncode_zero (k : Nat) : leEncode k 0 = List.replicate k 0 := by
  induction k with
  | zero => rfl
  | succ k ih => simp [leEncode, ih, List.replicate_succ]

theorem beEncode_zero (k : Nat) : beEncode k 0 = List.replicate k 0 := by
  simp [beEncode, leEncode_zero, List.reverse_replicate]

theorem lt_pow_byteLen (n : Nat) : n < 256 ^ byteLen n := by
  induction n using Nat.strong_induction_on with
  | _ n ih =>
      by_cases h : n = 0
      · subst h
        simp [byteLen]
      · have hpos : 0 < n := Nat.pos_of_ne_zero h
        have hlt : n / 256 < n := Nat.div_lt_self hpos (by decide)
        have hih := ih (n / 256) hlt
        have hstep : byteLen n = byteLen (n / 256) + 1 := by
          rw [byteLen]
          simp [h]
        rw [hstep]
        have h1 : n < 256 * (n / 256 + 1) := by
          have := Nat.div_add_mod n 256
          have hm : n % 256 < 256 := Nat.mod_lt n (by decide)
          omega
        have h2 : 256 * (n / 256 + 1) ≤ 256 * 256 ^ byteLen (n / 256) :=
          Nat.mul_le_mul_left 256 hih
        calc n < 256 * (n / 256 + 1) := h1
        _ ≤ 256 * 256 ^ byteLen (n / 256) := h2
        _ = 256 ^ (byteLen (n / 256) + 1) := by rw [pow_succ, Nat.mul_comm]

theorem beDecode_minBytes (n : Nat) : beDecode (minBytes n) = n := by
  unfold minBytes
  split
  · subst_vars
    decide
  · exact beDecode_beEncode (byteLen n) n (lt_pow_byteLen n)

theorem beDecode_derIntContent (n : Nat) : beDecode (derIntContent n) = n := by
  unfold derIntContent
  split
  · rw [beDecode_cons_zero, beDecode_minBytes]
  · exact beDecode_minBytes n

theorem parseDERInt_derInt (n : Nat) (t : List Nat) :
    parseDERInt (derInt n ++ t) = some (n, t) := by
  have hle : (derIntContent n).length ≤ (derIntContent n ++ t).length := by
    rw [List.length_append]
    exact Nat.le_add_right _ _
  have htake : (derIntContent n ++ t).take (derIntContent n).length
      = derIntContent n := List.take_left _ _
  have hdrop : (derIntContent n ++ t).drop (derIntContent n).length = t :=
    List.drop_left _ _
  simp [derInt, parseDERInt, hle, htake, hdrop, beDecode_derIntContent]

theorem d2i_i2d (r s : Nat) :
    d2i_ECDSA_SIG (i2d_ECDSA_SIG (r, s)) = some (r, s) := by
  have h1 : parseDERInt (derInt r ++ derInt s) = some (r, derInt s) :=
    parseDERInt_derInt r (derInt s)
  have h2 : parseDERInt (derInt s) = some (s, []) := by
    have := parseDERInt_derInt s []
    rwa [List.append_nil] at this
  simp [i2d_ECDSA_SIG, d2i_ECDSA_SIG, List.length_append, h1, h2]

/-! ### Frame helpers: methods that never assign to `self` -/

theorem sign_snd {K : Type} (lib : CECKeyLib K) (st : EC K) (msg : List Nat) :
    (EC.sign lib st msg).2 = st := by
  cases hi : st.init <;> cases hp : st.is_private <;> simp [EC.sign, hi, hp]

theorem verify_snd {K : Type} (lib : CECKeyLib K) (st : EC K)
    (msg sig : List Nat) : (EC.verify lib st msg sig).2 = st := by
  cases hi : st.init <;> simp [EC.verify, hi]

theorem get_pubkey_snd {K : Type} (lib : CECKeyLib K) (st : EC K) :
    (EC.get_pubkey lib st).2 = st := by
  cases hi : st.init <;> simp [EC.get_pubkey, hi]

theorem serialize_sig_snd {K : Type} (st : EC K)
    (d2i : List Nat → Option (Nat × Nat)) (sig : List Nat) :
    (EC.serialize_sig st d2i sig).2 = st := rfl

theorem deserialize_sig_snd {K : Type} (st : EC K)
    (i2d : Nat × Nat → List Nat) (serial_sig : List Nat) :
    (EC.deserialize_sig st i2d serial_sig).2 = st := by
  by_cases h : serial_sig.length = 64
  · by_cases h2 :
      (i2d (BinToBN (serial_sig.take 32), BinToBN (serial_sig.drop 32))).length = 0 <;>
      simp [EC.deserialize_sig, h, h2]
  · simp [EC.deserialize_sig, h]

/-! ### Claims -/

/-- Claim C1, counterexample: `load_public_key` never assigns
`self.is_private`, so after a `load_private_key` followed by a successful
`load_public_key` the handle still reports `is_private = true`, not
`false` as the claim states. -/
theorem ec_load_public_after_private_cex :
    EC.load_private_key unitLib (EC.new unitLib) [1]
      = (Except.ok (), EC.mk () true true) ∧
    EC.load_public_key unitLib (EC.mk () true true) [2]
      = (Except.ok (), EC.mk () true true) ∧
    (EC.mk () true true).is_private = true :=
  ⟨rfl, rfl, rfl⟩

/-- Claim C1, amended: a successful `load_public_key` leaves the handle
with `init = true` but leaves `is_private` exactly as it was (so `false`
on a handle that never loaded a private key, `true` after a prior
`load_private_key`). -/
theorem ec_load_public_success {K : Type} (lib : CECKeyLib K) (st : EC K)
    (bs : List Nat) (h : (EC.load_public_key lib st bs).1 = Except.ok ()) :
    (EC.load_public_key lib st bs).2.init = true ∧
    (EC.load_public_key lib st bs).2.is_private = st.is_private := by
  cases hs : lib.set_pubkey st.key bs with
  | some k => simp [EC.load_public_key, hs]
  | none => simp [EC.load_public_key, hs] at h

/-- Claim C1, witness: the amended statement evaluated on a fresh handle
with the trivial concrete library. -/
theorem ec_load_public_success_witness :
    (EC.load_public_key unitLib (EC.new unitLib) [2]).1 = Except.ok () ∧
    (EC.load_public_key unitLib (EC.new unitLib) [2]).2.init = true ∧
    (EC.load_public_key unitLib (EC.new unitLib) [2]).2.is_private
      = (EC.new unitLib).is_private :=
  ⟨rfl, (ec_load_public_success unitLib (EC.new unitLib) [2] rfl).1,
    (ec_load_public_success unitLib (EC.new unitLib) [2] rfl).2⟩

/-- Claim C2: `deserialize_sig` demands exactly 64 bytes — any other length
fails with the invalid-length error whatever the encoder does (so nothing
is ever parsed or encoded), and on a 64-byte input it splits at byte 32,
converts both halves, and hands them to the encoder. -/
theorem ec_deserialize_length_gate {K : Type} (st : EC K)
    (i2d : Nat × Nat → List Nat) (bs : List Nat) :
    (bs.length ≠ 64 →
      (EC.deserialize_sig st i2d bs).1 = Except.error ECError.invalidLength) ∧
    (bs.length = 64 →
      (EC.deserialize_sig st i2d bs).1 =
        if (i2d (BinToBN (bs.take 32), BinToBN (bs.drop 32))).length = 0 then
          Except.ok none
        else Except.ok (some (i2d (BinToBN (bs.take 32), BinToBN (bs.drop 32))))) := by
  constructor
  · intro h
    simp [EC.deserialize_sig, h]
  · intro h
    by_cases h2 : (i2d (BinToBN (bs.take 32), BinToBN (bs.drop 32))).length = 0 <;>
      simp [EC.deserialize_sig, h, h2]

/-- Claim C2, witness: a 63-byte and a 65-byte input fail with the
invalid-length error; a 64-byte input reaches the encoder. -/
theorem ec_deserialize_length_gate_witness :
    (EC.deserialize_sig (EC.new unitLib) (fun _ => [1]) (List.replicate 63 0)).1
      = Except.error ECError.invalidLength ∧
    (EC.deserialize_sig (EC.new unitLib) (fun _ => [1]) (List.replicate 65 0)).1
      = Except.error ECError.invalidLength ∧
    (EC.deserialize_sig (EC.new unitLib) (fun _ => [1]) (List.replicate 64 0)).1
      = Except.ok (some [1]) := by
  refine ⟨(ec_deserialize_length_gate _ _ _).1 (by decide),
    (ec_deserialize_length_gate _ _ _).1 (by decide), ?_⟩
  have := (ec_deserialize_length_gate (EC.new unitLib) (fun _ => [1])
    (List.replicate 64 0)).2 (by decide)
  simpa using this

/-- Claim C3, counterexample: on a 64-byte input for which the encoder
reports zero-length output, `deserialize_sig` returns `None` — a silent
absent value, not a raised `CodecError` (no `CodecError` raise site exists
in the source at all). -/
theorem ec_deserialize_zero_output_cex :
    (EC.deserialize_sig (EC.new unitLib) (fun _ => []) (List.replicate 64 1)).1
      = Except.ok none := rfl

/-- Claim C3, amended: when the encoder reports zero-length output on a
64-byte input, `deserialize_sig` frees the struct and returns `None`
(a successful absent result), rather than raising any error. -/
theorem ec_deserialize_zero_output {K : Type} (st : EC K)
    (i2d : Nat × Nat → List Nat) (bs : List Nat) (h64 : bs.length = 64)
    (hz : i2d (BinToBN (bs.take 32), BinToBN (bs.drop 32)) = []) :
    (EC.deserialize_sig st i2d bs).1 = Except.ok none := by
  simp [EC.deserialize_sig, h64, hz]

/-- Claim C3, witness: the amended statement evaluated at a concrete
64-byte input and the constantly-empty encoder. -/
theorem ec_deserialize_zero_output_witness :
    (List.replicate 64 (1 : Nat)).length = 64 ∧
    (EC.deserialize_sig (EC.mk () true false) (fun _ => [])
      (List.replicate 64 1)).1 = Except.ok none :=
  ⟨by decide,
    ec_deserialize_zero_output (EC.mk () true false) (fun _ => [])
      (List.replicate 64 1) (by decide) rfl⟩

/-- Claim C4, counterexample: `serialize_sig` ignores the decoder's result
entirely — on the one-byte input `[0]`, which the DER decoder rejects, it
still produces the 64-byte output of the zero-initialized struct instead
of failing with `CodecError` (the source has no `CodecError` raise site). -/
theorem ec_serialize_no_codec_error_cex :
    d2i_ECDSA_SIG [0] = none ∧
    (EC.serialize_sig (EC.new unitLib) d2i_ECDSA_SIG [0]).1
      = List.replicate 64 0 := by
  constructor
  · rfl
  · show beEncode 32 0 ++ beEncode 32 0 = List.replicate 64 0
    rw [beEncode_zero]
    rw [show (64 : Nat) = 32 + 32 from rfl, List.replicate_add]

/-- Claim C4, amended: `serialize_sig` performs no error checking at all.
It always returns exactly 64 bytes: when the decoder fails it returns the
encoding of the zero-initialized struct (`r = s = 0`, i.e. 64 zero bytes),
and when the decoder yields integers needing more than 32 bytes they are
silently truncated modulo `2 ^ 256`; no `CodecError` is ever raised. -/
theorem ec_serialize_total {K : Type} (st : EC K)
    (d2i : List Nat → Option (Nat × Nat)) (sig : List Nat) :
    (EC.serialize_sig st d2i sig).1.length = 64 ∧
    (d2i sig = none →
      (EC.serialize_sig st d2i sig).1 = List.replicate 64 0) ∧
    (∀ r s : Nat, d2i sig = some (r, s) →
      (EC.serialize_sig st d2i sig).1 =
        BNToBin (r % 2 ^ 256) 32 ++ BNToBin (s % 2 ^ 256) 32) := by
  have hpow : (2 : Nat) ^ 256 = 256 ^ 32 := by
    norm_num
  refine ⟨?_, ?_, ?_⟩
  · simp [EC.serialize_sig, BNToBin, length_beEncode]
  · intro h
    simp only [EC.serialize_sig, h, Option.getD_none, BNToBin]
    rw [beEncode_zero]
    rw [show (64 : Nat) = 32 + 32 from rfl, List.replicate_add]
  · intro r s h
    simp only [EC.serialize_sig, h, Option.getD_some, BNToBin]
    rw [hpow, beEncode_mod, beEncode_mod]

/-- Claim C4, witness: the amended statement evaluated on a decoder that
fails, and on one that reports an integer larger than 32 bytes. -/
theorem ec_serialize_total_witness :
    (EC.serialize_sig (EC.new unitLib) (fun _ => none) [5]).1
      = List.replicate 64 0 ∧
    (EC.serialize_sig (EC.new unitLib) (fun _ => some (2 ^ 256 + 1, 0)) [5]).1
      = BNToBin ((2 ^ 256 + 1) % 2 ^ 256) 32 ++ BNToBin (0 % 2 ^ 256) 32 :=
  ⟨(ec_serialize_total (EC.new unitLib) (fun _ => none) [5]).2.1 rfl,
    (ec_serialize_total (EC.new unitLib) (fun _ => some (2 ^ 256 + 1, 0)) [5]).2.2
      (2 ^ 256 + 1) 0 rfl⟩

/-- Claim C5: on an initialized handle `verify` returns the plain boolean
`key.verify(msg, sig) == 1`, whatever integer code the library reports
(so a library rejection of malformed bytes becomes `false`, never a
raised fault); on an uninitialized handle it fails with the
not-ready error. -/
theorem ec_verify_contract {K : Type} (lib : CECKeyLib K) (st : EC K)
    (msg sig : List Nat) :
    (st.init = true →
      (EC.verify lib st msg sig).1 = Except.ok (lib.verify st.key msg sig == 1)) ∧
    (st.init = false →
      (EC.verify lib st msg sig).1 = Except.error ECError.notReady) := by
  constructor
  · intro h
    simp [EC.verify, h]
  · intro h
    simp [EC.verify, h]

/-- Claim C5, witness: with a library that reports the OpenSSL malformed-
signature code `-1`, verification on an initialized handle yields
`ok false`; on a fresh handle it yields the not-ready error. -/
theorem ec_verify_contract_witness :
    (EC.verify unitLib (EC.mk () true false) [1] [2]).1 = Except.ok false ∧
    (EC.verify unitLib (EC.new unitLib) [1] [2]).1
      = Except.error ECError.notReady :=
  ⟨(ec_verify_contract unitLib (EC.mk () true false) [1] [2]).1 rfl,
    (ec_verify_contract unitLib (EC.new unitLib) [1] [2]).2 rfl⟩

/-- Claim C6: `sign` on an uninitialized handle fails with the not-ready
error, on an initialized public-only handle it fails with the
private-key-required error — in both cases for every possible library,
so the signing computation is never invoked — and only with both flags
set does it return the library's signature. -/
theorem ec_sign_preconditions {K : Type} (lib : CECKeyLib K) (st : EC K)
    (msg : List Nat) :
    (st.init = false →
      (EC.sign lib st msg).1 = Except.error ECError.notReady) ∧
    (st.init = true → st.is_private = false →
      (EC.sign lib st msg).1 = Except.error ECError.privateKeyRequired) ∧
    (st.init = true → st.is_private = true →
      (EC.sign lib st msg).1 = Except.ok (lib.sign st.key msg)) := by
  refine ⟨?_, ?_, ?_⟩
  · intro h
    simp [EC.sign, h]
  · intro h hp
    simp [EC.sign, h, hp]
  · intro h hp
    simp [EC.sign, h, hp]

/-- Claim C6, witness: the three branches evaluated on concrete handle
states with the trivial concrete library. -/
theorem ec_sign_preconditions_witness :
    (EC.sign unitLib (EC.new unitLib) [1]).1 = Except.error ECError.notReady ∧
    (EC.sign unitLib (EC.mk () true false) [1]).1
      = Except.error ECError.privateKeyRequired ∧
    (EC.sign unitLib (EC.mk () true true) [1]).1
      = Except.ok [48, 6, 2, 1, 1, 2, 1, 1] :=
  ⟨(ec_sign_preconditions unitLib (EC.new unitLib) [1]).1 rfl,
    (ec_sign_preconditions unitLib (EC.mk () true false) [1]).2.1 rfl rfl,
    (ec_sign_preconditions unitLib (EC.mk () true true) [1]).2.2 rfl rfl⟩

/-- Claim C7: for every 64-byte compact signature, `deserialize_sig`
(through the concrete DER encoder) succeeds, and `serialize_sig` (through
the concrete DER decoder) maps the resulting DER bytes back to exactly
the original 64 bytes — `to_compact` after `from_compact` is the
identity, sign-guard bytes and all-zero components included. -/
theorem ec_compact_roundtrip {K : Type} (st st2 : EC K) (bs : List Nat)
    (h64 : bs.length = 64) (hb : ∀ b ∈ bs, b < 256) :
    ∃ der, (EC.deserialize_sig st i2d_ECDSA_SIG bs).1 = Except.ok (some der) ∧
      (EC.serialize_sig st2 d2i_ECDSA_SIG der).1 = bs := by
  refine ⟨i2d_ECDSA_SIG (BinToBN (bs.take 32), BinToBN (bs.drop 32)), ?_, ?_⟩
  · have hne :
        (i2d_ECDSA_SIG (BinToBN (bs.take 32), BinToBN (bs.drop 32))).length ≠ 0 := by
      simp [i2d_ECDSA_SIG]
    simp [EC.deserialize_sig, h64, hne]
  · have htl : (bs.take 32).length = 32 := by
      rw [List.length_take, h64]
      decide
    have hdl : (bs.drop 32).length = 32 := by
      rw [List.length_drop, h64]
    have h1 : beEncode 32 (beDecode (bs.take 32)) = bs.take 32 := by
      have := beEncode_beDecode (bs.take 32)
        (fun b hbm => hb b (List.mem_of_mem_take hbm))
      rwa [htl] at this
    have h2 : beEncode 32 (beDecode (bs.drop 32)) = bs.drop 32 := by
      have := beEncode_beDecode (bs.drop 32)
        (fun b hbm => hb b (List.mem_of_mem_drop hbm))
      rwa [hdl] at this
    simp [EC.serialize_sig, d2i_i2d, BNToBin, BinToBN, h1, h2,
      List.take_append_drop]

/-- Claim C7, witness: the round trip evaluated at the boundary compact
signature whose R and S are both the byte `0x80` followed by 31 zero
bytes (top bit set, so the DER form needs a sign-guard byte). -/
theorem ec_compact_roundtrip_witness :
    ((128 :: List.replicate 31 0) ++ 128 :: List.replicate 31 0 : List Nat).length
      = 64 ∧
    (∃ der,
      (EC.deserialize_sig (EC.new unitLib) i2d_ECDSA_SIG
        ((128 :: List.replicate 31 0) ++ 128 :: List.replicate 31 0)).1
        = Except.ok (some der) ∧
      (EC.serialize_sig (EC.new unitLib) d2i_ECDSA_SIG der).1
        = (128 :: List.replicate 31 0) ++ 128 :: List.replicate 31 0) :=
  ⟨by decide,
    ec_compact_roundtrip (EC.new unitLib) (EC.new unitLib)
      ((128 :: List.replicate 31 0) ++ 128 :: List.replicate 31 0)
      (by decide) (by decide)⟩

/-- Claim C8: in every handle state reachable from `EC.__init__` through
the class's methods (loads succeeding or failing, sign, verify,
get_pubkey), `is_private = true` implies `init = true`. -/
theorem ec_has_private_imp_init {K : Type} (lib : CECKeyLib K) (st : EC K)
    (h : ECReach lib st) (hp : st.is_private = true) : st.init = true := by
  revert hp
  induction h with
  | mk_new =>
      intro hp
      simp [EC.new] at hp
  | load_pub st bs _ ih =>
      intro hp
      cases hs : lib.set_pubkey st.key bs with
      | some k => simp [EC.load_public_key, hs]
      | none =>
          simp [EC.load_public_key, hs] at hp ⊢
          exact ih hp
  | load_priv st bs _ ih =>
      intro hp
      cases hs : lib.set_privkey st.key bs with
      | some k => simp [EC.load_private_key, hs]
      | none =>
          simp [EC.load_private_key, hs] at hp ⊢
          exact ih hp
  | do_sign st msg _ ih =>
      intro hp
      rw [sign_snd] at hp ⊢
      exact ih hp
  | do_verify st msg sig _ ih =>
      intro hp
      rw [verify_snd] at hp ⊢
      exact ih hp
  | do_pubkey st _ ih =>
      intro hp
      rw [get_pubkey_snd] at hp ⊢
      exact ih hp

/-- Claim C8, witness: the invariant evaluated at the concrete reachable
state produced by one successful `load_private_key` on a fresh handle. -/
theorem ec_has_private_imp_init_witness :
    (EC.load_private_key unitLib (EC.new unitLib) [1]).2.is_private = true ∧
    (EC.load_private_key unitLib (EC.new unitLib) [1]).2.init = true :=
  ⟨rfl,
    ec_has_private_imp_init unitLib _
      (ECReach.load_priv (EC.new unitLib) [1] ECReach.mk_new) rfl⟩

/-- Claim C9: `get_pubkey` returns `None` exactly when the handle is not
initialized, and otherwise returns the library's public-key encoding;
its only outcomes are these two — there is no error path. -/
theorem ec_get_pubkey_contract {K : Type} (lib : CECKeyLib K) (st : EC K) :
    ((EC.get_pubkey lib st).1 = none ↔ st.init = false) ∧
    (st.init = true →
      (EC.get_pubkey lib st).1 = some (lib.get_pubkey st.key)) := by
  cases hi : st.init <;> simp [EC.get_pubkey, hi]

/-- Claim C9, witness: both outcomes evaluated on concrete states with the
trivial concrete library. -/
theorem ec_get_pubkey_contract_witness :
    (EC.get_pubkey unitLib (EC.mk () true false)).1 = some [4, 7] ∧
    (EC.get_pubkey unitLib (EC.new unitLib)).1 = none :=
  ⟨(ec_get_pubkey_contract unitLib (EC.mk () true false)).2 rfl,
    (ec_get_pubkey_contract unitLib (EC.new unitLib)).1.mpr rfl⟩

/-- Claim C10: `sign`, `verify`, `get_pubkey`, `serialize_sig` and
`deserialize_sig` return the handle state unchanged — fields `key`,
`init` and `is_private` included — on every input and on both success
and failure branches; only the two load methods produce a new state. -/
theorem ec_frame_no_mutation {K : Type} (lib : CECKeyLib K) (st : EC K)
    (msg sig serial_sig : List Nat) (d2i : List Nat → Option (Nat × Nat))
    (i2d : Nat × Nat → List Nat) :
    (EC.sign lib st msg).2 = st ∧
    (EC.verify lib st msg sig).2 = st ∧
    (EC.get_pubkey lib st).2 = st ∧
    (EC.serialize_sig st d2i sig).2 = st ∧
    (EC.deserialize_sig st i2d serial_sig).2 = st :=
  ⟨sign_snd lib st msg, verify_snd lib st msg sig, get_pubkey_snd lib st,
    serialize_sig_snd st d2i sig, deserialize_sig_snd st i2d serial_sig⟩
